import Mathlib

/-!
Verification of the hotmic metrics library (Rust) against its specification.

The Rust source is embedded shallowly: hash maps become association lists,
`u64` raw values become `Nat` with explicit wrapping modulo `2^64` where the
source wraps, `i64` arithmetic becomes `Int` with the twos-complement wrap
the machine performs, `Instant`/`Duration` become nanosecond counts (`Nat`),
and the external `hdrhistogram` crate histogram is abstracted as the list
of values recorded into it (its quantisation is irrelevant to the properties
proved here).
-/

/-- Twos-complement range bound for `i64`: `2^63`. -/
def i64Half : Int := 2 ^ 63

/-- Twos-complement wrap of an integer into the `i64` range
`[-2^63, 2^63)`, the semantics of Rust release-mode `i64` addition. -/
def wrapI64 (x : Int) : Int := (x + i64Half) % (2 ^ 64) - i64Half

/-- Reinterpretation of a `u64` bit pattern as `i64` (`count as i64` in
`src/data/counter.rs`). -/
def u64AsI64 (n : Nat) : Int := if n < 2 ^ 63 then (n : Int) else (n : Int) - 2 ^ 64

/-- Association-list lookup, the embedding of `HashMap::get`. -/
def alookup {K V : Type} [DecidableEq K] : List (K × V) → K → Option V
  | [], _ => none
  | (k', v) :: t, k => if k = k' then some v else alookup t k

/-- Association-list in-place modification of an existing entry, the
embedding of `HashMap::get_mut` followed by a write: absent keys are left
untouched. -/
def aadjust {K V : Type} [DecidableEq K] (f : V → V) : List (K × V) → K → List (K × V)
  | [], _ => []
  | (k', v) :: t, k => if k = k' then (k', f v) :: t else (k', v) :: aadjust f t k

/-- Association-list `entry(key).or_insert(v)`: insert only when absent. -/
def aorInsert {K V : Type} [DecidableEq K] (l : List (K × V)) (k : K) (v : V) : List (K × V) :=
  match alookup l k with
  | some _ => l
  | none => (k, v) :: l

/-- Embedding of `Sample<T>` from `src/data/mod.rs`: `Timing(key, start, end, count)`
with `u64` raw clock readings and a `u64` count, `Count(key, i64 delta)`,
and `Value(key, u64 value)`. -/
inductive Sample (K : Type) where
  | Timing : K → Nat → Nat → Nat → Sample K
  | Count : K → Int → Sample K
  | Value : K → Nat → Sample K
deriving DecidableEq

/-- Embedding of `Counter<T>` from `src/data/counter.rs`: a map from keys to `i64`. -/
structure Counter (K : Type) where
  data : List (K × Int)
deriving DecidableEq

namespace Counter

variable {K : Type} [DecidableEq K]

/-- Embedding of `Counter::new`. -/
def new : Counter K := ⟨[]⟩

/-- Embedding of `Counter::register`: `self.data.entry(key).or_insert(0)`. -/
def register (c : Counter K) (key : K) : Counter K := ⟨aorInsert c.data key 0⟩

/-- Embedding of `Counter::deregister`: `self.data.remove(&key)`. -/
def deregister (c : Counter K) (key : K) : Counter K := ⟨c.data.filter (fun p => p.1 ≠ key)⟩

/-- Embedding of `Counter::update`: a `Timing` sample adds `count as i64`, a `Count`
sample adds its delta, a `Value` sample adds `1` — in every arm only via
`get_mut`, so a key without an entry is left untouched. -/
def update (c : Counter K) (s : Sample K) : Counter K :=
  match s with
  | .Timing key _ _ count => ⟨aadjust (fun e => wrapI64 (e + u64AsI64 count)) c.data key⟩
  | .Count key count => ⟨aadjust (fun e => wrapI64 (e + count)) c.data key⟩
  | .Value key _ => ⟨aadjust (fun e => wrapI64 (e + 1)) c.data key⟩

/-- Embedding of `Counter::value`: `self.data.get(&key).unwrap_or(&0)`. -/
def value (c : Counter K) (key : K) : Int := (alookup c.data key).getD 0

end Counter

/-- Embedding of `Gauge<T>` from `src/data/gauge.rs`: a map from keys to `u64`. -/
structure Gauge (K : Type) where
  data : List (K × Nat)
deriving DecidableEq

namespace Gauge

variable {K : Type} [DecidableEq K]

/-- Embedding of `Gauge::new`. -/
def new : Gauge K := ⟨[]⟩

/-- Embedding of `Gauge::register`: `self.data.entry(key).or_insert(0)`. -/
def register (g : Gauge K) (key : K) : Gauge K := ⟨aorInsert g.data key 0⟩

/-- Embedding of `Gauge::deregister`. -/
def deregister (g : Gauge K) (key : K) : Gauge K := ⟨g.data.filter (fun p => p.1 ≠ key)⟩

/-- Embedding of `Gauge::update`: only a `Value` sample writes, and only through
`get_mut`, so a key without an entry is left untouched; other sample kinds
are ignored. -/
def update (g : Gauge K) (s : Sample K) : Gauge K :=
  match s with
  | .Value key v => ⟨aadjust (fun _ => v) g.data key⟩
  | _ => g

/-- Embedding of `Gauge::value`: `self.data.get(&key).unwrap_or(&0)`. -/
def value (g : Gauge K) (key : K) : Nat := (alookup g.data key).getD 0

end Gauge

/-- Embedding of `WindowedHistogram` from `src/data/histogram.rs`.  Each HDR histogram
bucket of the external `hdrhistogram` crate is abstracted as the list of
values recorded into it; `Instant` and `Duration` are nanosecond counts. -/
structure WindowedHistogram where
  buckets : List (List Nat)
  num_buckets : Nat
  bucket_index : Nat
  last_upkeep : Nat
  granularity : Nat
deriving DecidableEq

namespace WindowedHistogram

/-- Embedding of `WindowedHistogram::new`: `(window_ns / granularity_ns) + 1` empty
buckets, writer index 0.  The source initialises `last_upkeep` with
`Instant::now()`, passed here as the explicit argument `now`. -/
def new (window granularity now : Nat) : WindowedHistogram :=
  let n := window / granularity + 1
  ⟨List.replicate n [], n, 0, now, granularity⟩

/-- Embedding of `WindowedHistogram::upkeep`: when `at ≥ last_upkeep + granularity`,
advance the writer index modulo `num_buckets`, clear the bucket it now
points at, and record the upkeep time; otherwise do nothing. -/
def upkeep (wh : WindowedHistogram) (at_ : Nat) : WindowedHistogram :=
  if wh.last_upkeep + wh.granularity ≤ at_ then
    let idx := (wh.bucket_index + 1) % wh.num_buckets
    { wh with bucket_index := idx, buckets := wh.buckets.set idx [], last_upkeep := at_ }
  else wh

/-- Embedding of `WindowedHistogram::update`: `saturating_record` the value into the
current writer bucket (with bounds `1..u64::MAX` no `u64` value is altered
by the saturation, so recording is modelled as appending the value). -/
def update (wh : WindowedHistogram) (value : Nat) : WindowedHistogram :=
  { wh with
    buckets := wh.buckets.set wh.bucket_index ((wh.buckets.getD wh.bucket_index []) ++ [value]) }

/-- Embedding of `WindowedHistogram::merged`: start from an empty histogram with the
same configuration and add every bucket into it — the multiset union of
all buckets. -/
def merged (wh : WindowedHistogram) : List Nat := wh.buckets.flatten

end WindowedHistogram

/-- Embedding of `Histogram<T>` from `src/data/histogram.rs`: a map from keys to
windowed histograms, with the window and granularity the store was
configured with. -/
structure Histogram (K : Type) where
  window : Nat
  granularity : Nat
  data : List (K × WindowedHistogram)
deriving DecidableEq

namespace Histogram

variable {K : Type} [DecidableEq K]

/-- Embedding of `Histogram::new`. -/
def new (window granularity : Nat) : Histogram K := ⟨window, granularity, []⟩

/-- Embedding of `Histogram::register`: `entry(key).or_insert(WindowedHistogram::new(window, granularity))`.
`now` is the `Instant::now()` the source reads inside `WindowedHistogram::new`. -/
def register (h : Histogram K) (key : K) (now : Nat) : Histogram K :=
  { h with data := aorInsert h.data key (WindowedHistogram.new h.window h.granularity now) }

/-- Embedding of `Histogram::deregister`. -/
def deregister (h : Histogram K) (key : K) : Histogram K :=
  { h with data := h.data.filter (fun p => p.1 ≠ key) }

/-- Embedding of `Histogram::update`: a `Timing` sample records the difference of its
two readings, a `Value` sample records its value — in both arms only via
`get_mut`, so a key without an entry is left untouched; `Count` samples are
ignored. -/
def update (h : Histogram K) (s : Sample K) : Histogram K :=
  match s with
  | .Timing key start stop _ =>
      { h with data := aadjust (fun wh => wh.update (stop - start)) h.data key }
  | .Value key v => { h with data := aadjust (fun wh => wh.update v) h.data key }
  | .Count _ _ => h

/-- Embedding of `Histogram::upkeep`: run upkeep on every windowed histogram. -/
def upkeep (h : Histogram K) (at_ : Nat) : Histogram K :=
  { h with data := h.data.map (fun p => (p.1, p.2.upkeep at_)) }

/-- Embedding of `Histogram::snapshot`: the merged histogram for a key, `None` when the
key has no entry. -/
def snapshot (h : Histogram K) (key : K) : Option (List Nat) :=
  (alookup h.data key).map WindowedHistogram.merged

end Histogram

/-- A labeled percentile: a label string and the percentile value.  The
`f64` value is modelled as a rational. -/
structure Percentile where
  label : String
  value : ℚ
deriving DecidableEq

/-- Embedding of `default_percentiles` from `src/data/mod.rs`: min, p50, p90, p99, p999
and max, with their percentile values. -/
def dataDefaultPercentiles : List Percentile :=
  [⟨"min", 0⟩, ⟨"p50", 50⟩, ⟨"p90", 90⟩, ⟨"p99", 99⟩, ⟨"p999", 99.9⟩, ⟨"max", 100⟩]

/-- The decimal digits of the fractional part of a rational in `[0, 1)`,
with a recursion fuel bound. -/
def ratFracDigits : ℚ → Nat → String
  | _, 0 => ""
  | q, fuel + 1 =>
    if q = 0 then ""
    else
      let q10 := q * 10
      let d : Int := ⌊q10⌋
      toString d.toNat ++ ratFracDigits (q10 - (d : ℚ)) fuel

/-- Modelled from the spec: `Percentile::from(f64)` is used by
`src/configuration.rs` but its implementation is not under `src/`.  Per the
spec, the value is clamped to `[0, 100]`; the label is `"min"` for `0`,
`"max"` for `100`, and otherwise `"p"` followed by the decimal digits of
the value with the decimal point removed. -/
def Percentile.from (p : ℚ) : Percentile :=
  let clamped := min 100 (max 0 p)
  let label :=
    if clamped = 0 then "min"
    else if clamped = 100 then "max"
    else "p" ++ toString (Int.toNat ⌊clamped⌋) ++ ratFracDigits (clamped - (⌊clamped⌋ : ℚ)) 30
  ⟨label, clamped⟩

/-- Embedding of `default_percentiles` from `src/configuration.rs`: `Percentile::from`
applied to 0, 50, 95, 99, 99.9 and 100. -/
def configDefaultPercentiles : List Percentile :=
  [Percentile.from 0, Percentile.from 50, Percentile.from 95, Percentile.from 99,
   Percentile.from 99.9, Percentile.from 100]

/-- Embedding of `Configuration` from `src/configuration.rs`.  Durations are nanosecond
counts. -/
structure Configuration where
  capacity : Nat
  batch_size : Nat
  histogram_window : Nat
  histogram_granularity : Nat
  percentiles : List Percentile
deriving DecidableEq

namespace Configuration

/-- Embedding of `Configuration::default`, which `Configuration::new` returns: capacity
512, batch size 64, a 10 second window with 1 second granularity, and the
configuration module default percentiles. -/
def new : Configuration :=
  ⟨512, 64, 10000000000, 1000000000, configDefaultPercentiles⟩

/-- Builder method `Configuration::capacity`. -/
def setCapacity (c : Configuration) (n : Nat) : Configuration := { c with capacity := n }

/-- Builder method `Configuration::batch_size`. -/
def setBatchSize (c : Configuration) (n : Nat) : Configuration := { c with batch_size := n }

/-- Builder method `Configuration::histogram`. -/
def setHistogram (c : Configuration) (window granularity : Nat) : Configuration :=
  { c with histogram_window := window, histogram_granularity := granularity }

/-- Builder method `Configuration::percentiles`. -/
def setPercentiles (c : Configuration) (ps : List ℚ) : Configuration :=
  { c with percentiles := ps.map Percentile.from }

end Configuration

/-- Embedding of `ClockType` from `src/clock/mod.rs`. -/
inductive ClockType where
  | Monotonic
  | Counter
deriving DecidableEq

/-- Embedding of `Calibration` from `src/clock/mod.rs`.  The `f64` fields are modelled
as rationals. -/
structure Calibration where
  calibrated : Bool
  ref_time : ℚ
  src_time : ℚ
  ref_hz : ℚ
  src_hz : ℚ
  hz_ratio : ℚ
deriving DecidableEq

namespace Calibration

/-- Embedding of `Calibration::new`: uncalibrated, both frequencies `1e9`, ratio 1. -/
def new : Calibration := ⟨false, 0, 0, 1000000000, 1000000000, 1⟩

/-- Embedding of `Calibration::calibrate`.  When reference and source have the same
clock type it only marks the calibration done; otherwise it measures the
source frequency against one reference second.  The three clock readings
the source takes (`reference.now()`, `source.start()`, and the
`source.end()` observed once the busy-wait sees the reference reach
`ref_time + ref_hz`) are passed as explicit arguments. -/
def calibrate (cal : Calibration) (refType srcType : ClockType)
    (refTime srcStart srcEnd : ℚ) : Calibration :=
  if refType = srcType then { cal with calibrated := true }
  else
    let ref_time := refTime
    let src_time := srcStart
    let ref_end := ref_time + cal.ref_hz
    let src_end := srcEnd
    let ref_d := ref_end - ref_time
    let src_d := src_end - src_time
    let src_hz := src_d * cal.ref_hz / ref_d
    { calibrated := true, ref_time := ref_time, src_time := src_time,
      ref_hz := cal.ref_hz, src_hz := src_hz, hz_ratio := cal.ref_hz / src_hz }

end Calibration

/-- Embedding of `u64::wrapping_sub`: the difference of two `u64` values modulo `2^64`
(meaningful for arguments below `2^64`). -/
def u64WrapSub (e s : Nat) : Nat := (e + 2 ^ 64 - s) % 2 ^ 64

/-- The Rust `as u64` cast of a nonnegative-or-clamped `f64`: truncate
toward zero and saturate into the `u64` range. -/
def ratAsU64 (q : ℚ) : Nat := min (Int.toNat ⌊q⌋) (2 ^ 64 - 1)

/-- The reference clock type: `type Reference = Monotonic`. -/
def referenceClockType : ClockType := ClockType.Monotonic

/-- The source clock type: `Counter` when the `tsc` feature is enabled,
otherwise `Monotonic`. -/
def sourceClockType (tsc : Bool) : ClockType :=
  if tsc then ClockType.Counter else ClockType.Monotonic

/-- Embedding of `Clock` from `src/clock/mod.rs`: a reference source, a fast source and
a calibration between them.  The sources are represented by their clock
types; their readings enter through explicit arguments. -/
structure Clock where
  referenceType : ClockType
  sourceType : ClockType
  cal : Calibration
deriving DecidableEq

namespace Clock

/-- Embedding of `Clock::from_parts`: calibrate unless the supplied calibration is
already marked calibrated. -/
def fromParts (rt st : ClockType) (refTime srcStart srcEnd : ℚ)
    (calibration : Calibration) : Clock :=
  if calibration.calibrated then ⟨rt, st, calibration⟩
  else ⟨rt, st, calibration.calibrate rt st refTime srcStart srcEnd⟩

/-- Embedding of `Clock::new`: `from_parts(Reference::new(), Source::new(), Calibration::new())`.
It is a total function — construction never fails. -/
def new (tsc : Bool) (refTime srcStart srcEnd : ℚ) : Clock :=
  fromParts referenceClockType (sourceClockType tsc) refTime srcStart srcEnd Calibration.new

/-- The arithmetic of `Clock::delta`: `(end.wrapping_sub(start) as f64 * hz_ratio) as u64`. -/
def deltaOf (cal : Calibration) (start stop : Nat) : Nat :=
  ratAsU64 ((u64WrapSub stop start : ℚ) * cal.hz_ratio)

/-- Embedding of `Clock::delta`: scale the wrapping difference of the two raw readings
by the calibrated frequency ratio. -/
def delta (c : Clock) (start stop : Nat) : Nat := deltaOf c.cal start stop

end Clock

/-- Embedding of `SendError<T>` from `src/channel.rs` (the `Io` variant, which carries a
live OS error and is never produced by `send`, is omitted). -/
inductive SendError (α : Type) where
  | Full : α → SendError α
  | Disconnected : α → SendError α
deriving DecidableEq

/-- The bounded channel of `src/channel.rs`: a capacity and the queued
values. -/
structure Chan (α : Type) where
  bound : Nat
  queue : List α
deriving DecidableEq

namespace Chan

/-- Embedding of `crossbeam_channel::Sender::is_full` on a bounded channel: the queue
holds `bound` values. -/
def isFull {α : Type} (c : Chan α) : Bool := c.queue.length == c.bound

/-- Embedding of `Sender::send` from `src/channel.rs`: return `Err(SendError::Full(t))`
when the channel is full, otherwise enqueue the value. -/
def send {α : Type} (c : Chan α) (t : α) : Except (SendError α) (Chan α) :=
  if c.isFull then Except.error (SendError.Full t)
  else Except.ok ⟨c.bound, c.queue ++ [t]⟩

end Chan

/-- Embedding of `SnapshotError` from the snapshot module. -/
inductive SnapshotError where
  | ReceiverShutdown
  | InternalError
deriving DecidableEq

/-- Embedding of `Controller::get_snapshot` from `src/control.rs`:
`send(msg).map_err(|_| ReceiverShutdown).and_then(|_| rx.recv().map_err(|_| InternalError))`.
The outcome of the control-channel send is abstracted as `sendOk` (false
exactly when the send fails, i.e. the receiver is gone) and the outcome of
the blocking receive on the zero-capacity response channel as `response`
(`none` exactly when the responder is dropped without sending). -/
def Controller.getSnapshot {α : Type} (sendOk : Bool) (response : Option α) :
    Except SnapshotError α :=
  match sendOk with
  | false => Except.error SnapshotError.ReceiverShutdown
  | true =>
    match response with
    | none => Except.error SnapshotError.InternalError
    | some s => Except.ok s

/-- Embedding of `ScopedKey<T>` from `src/data/mod.rs`: a scope id paired with the
callers key. -/
def ScopedKey (K : Type) := Nat × K

instance {K : Type} [DecidableEq K] : DecidableEq (ScopedKey K) :=
  instDecidableEqProd

/-- Embedding of `Facet<T>` from `src/data/mod.rs`. -/
inductive Facet (K : Type) where
  | Count : K → Facet K
  | Gauge : K → Facet K
  | TimingPercentile : K → Facet K
  | ValuePercentile : K → Facet K
deriving DecidableEq

/-- Embedding of `UpkeepMessage<T>` from `src/receiver.rs`. -/
inductive UpkeepMessage (K : Type) where
  | AddFacet : Facet K → UpkeepMessage K
  | RemoveFacet : Facet K → UpkeepMessage K
  | RegisterScope : Nat → String → UpkeepMessage K
deriving DecidableEq

/-- Embedding of `MessageFrame<T>` from `src/receiver.rs`. -/
inductive MessageFrame (K : Type) where
  | Data : Sample K → MessageFrame K
  | Upkeep : UpkeepMessage K → MessageFrame K
deriving DecidableEq

/-- The state a `Receiver<T>` from `src/receiver.rs` owns: channel
capacities, the registered facets, the three stores, the percentile set,
the clock calibration and the scope registry.  The channels themselves
carry no receiver-side state beyond their capacity. -/
structure ReceiverState (K : Type) where
  msgCapacity : Nat
  controlCapacity : Nat
  facets : List (Facet (ScopedKey K))
  counter : Counter (ScopedKey K)
  gauge : Gauge (ScopedKey K)
  histogram : Histogram (ScopedKey K)
  percentiles : List Percentile
  cal : Calibration
  scopes : List (Nat × String)

namespace ReceiverState

variable {K : Type} [DecidableEq K]

/-- Embedding of `Receiver::from_config`: a sample channel bounded by the configured
capacity, a control channel bounded by 16, empty facets and stores, a
histogram store hard-coded to a 10 second window with 1 second granularity,
the data module default percentiles, a fresh clock and an empty scope
registry.  The machine-dependent calibration `Clock::new()` performs is
passed in as `cal`. -/
def fromConfig (conf : Configuration) (cal : Calibration) : ReceiverState K :=
  { msgCapacity := conf.capacity
    controlCapacity := 16
    facets := []
    counter := Counter.new
    gauge := Gauge.new
    histogram := Histogram.new 10000000000 1000000000
    percentiles := dataDefaultPercentiles
    cal := cal
    scopes := [] }

/-- Embedding of `Receiver::add_facet`: register the key with the store the facet names
and remember the facet (`HashSet::insert`). -/
def addFacet (r : ReceiverState K) (facet : Facet (ScopedKey K)) (now : Nat) :
    ReceiverState K :=
  let r' :=
    match facet with
    | .Count t => { r with counter := r.counter.register t }
    | .Gauge t => { r with gauge := r.gauge.register t }
    | .TimingPercentile t => { r with histogram := r.histogram.register t now }
    | .ValuePercentile t => { r with histogram := r.histogram.register t now }
  { r' with facets := if facet ∈ r'.facets then r'.facets else facet :: r'.facets }

/-- Embedding of `Receiver::remove_facet`. -/
def removeFacet (r : ReceiverState K) (facet : Facet (ScopedKey K)) : ReceiverState K :=
  let r' :=
    match facet with
    | .Count t => { r with counter := r.counter.deregister t }
    | .Gauge t => { r with gauge := r.gauge.deregister t }
    | .TimingPercentile t => { r with histogram := r.histogram.deregister t }
    | .ValuePercentile t => { r with histogram := r.histogram.deregister t }
  { r' with facets := r'.facets.filter (fun f => f ≠ facet) }

/-- Embedding of `Receiver::process_upkeep_msg`.  `now` is the `Instant::now()` read
when a histogram facet registration creates a windowed histogram. -/
def processUpkeepMsg (r : ReceiverState K) (msg : UpkeepMessage (ScopedKey K)) (now : Nat) :
    ReceiverState K :=
  match msg with
  | .AddFacet facet => r.addFacet facet now
  | .RemoveFacet facet => r.removeFacet facet
  | .RegisterScope id scope => { r with scopes := aorInsert r.scopes id scope }

/-- Embedding of `Receiver::process_msg_frame`: upkeep frames go to
`process_upkeep_msg`; for a data frame, a `Timing` sample is first replaced
by `Value(key, clock.delta(start, end))`, and the resulting sample is then
applied to the counter, gauge and histogram stores in turn. -/
def processMsgFrame (r : ReceiverState K) (msg : MessageFrame (ScopedKey K)) (now : Nat) :
    ReceiverState K :=
  match msg with
  | .Upkeep umsg => r.processUpkeepMsg umsg now
  | .Data sample =>
    let sample :=
      match sample with
      | .Timing key start stop _ => Sample.Value key (Clock.deltaOf r.cal start stop)
      | x => x
    { r with
      counter := r.counter.update sample
      gauge := r.gauge.update sample
      histogram := r.histogram.update sample }

end ReceiverState

/-! Helper lemmas about the association-list operations. -/

lemma alookup_aadjust_self {K V : Type} [DecidableEq K] (f : V → V) (l : List (K × V)) (k : K) :
    alookup (aadjust f l k) k = (alookup l k).map f := by
  induction l with
  | nil => rfl
  | cons p t ih =>
    obtain ⟨k', v⟩ := p
    by_cases h : k = k'
    · simp [alookup, aadjust, h]
    · simp [alookup, aadjust, h, ih]

lemma alookup_aadjust_ne {K V : Type} [DecidableEq K] (f : V → V) (l : List (K × V))
    (k k₂ : K) (h : k₂ ≠ k) : alookup (aadjust f l k) k₂ = alookup l k₂ := by
  induction l with
  | nil => rfl
  | cons p t ih =>
    obtain ⟨k', v⟩ := p
    by_cases hk : k = k'
    · subst hk
      simp [alookup, aadjust, h]
    · by_cases hk2 : k₂ = k'
      · simp [alookup, aadjust, hk, hk2]
      · simp [alookup, aadjust, hk, hk2, ih]

lemma aadjust_of_alookup_none {K V : Type} [DecidableEq K] (f : V → V) (l : List (K × V))
    (k : K) (h : alookup l k = none) : aadjust f l k = l := by
  induction l with
  | nil => rfl
  | cons p t ih =>
    obtain ⟨k', v⟩ := p
    by_cases hk : k = k'
    · simp [alookup, hk] at h
    · simp [alookup, hk] at h
      simp [aadjust, hk, ih h]

lemma alookup_aorInsert_self {K V : Type} [DecidableEq K] (l : List (K × V)) (k : K) (v : V) :
    alookup (aorInsert l k v) k = some ((alookup l k).getD v) := by
  unfold aorInsert
  cases h : alookup l k with
  | some w => simp [h]
  | none => simp [alookup, h]

/-! Helper lemmas about `i64` wrapping arithmetic. -/

lemma wrapI64_eq_self {x : Int} (h₁ : -i64Half ≤ x) (h₂ : x < i64Half) : wrapI64 x = x := by
  have h0 : (0 : Int) ≤ x + i64Half := by omega
  have hlt : x + i64Half < 2 ^ 64 := by
    simp only [i64Half] at h₂ ⊢
    omega
  unfold wrapI64
  rw [Int.emod_eq_of_lt h0 hlt]
  omega

/-- Decidable check that every running sum of the deltas stays inside the
`i64` range, starting from accumulator `a`. -/
def sumsInRange : Int → List Int → Bool
  | _, [] => true
  | a, d :: t =>
    (decide (-i64Half ≤ a + d) && decide (a + d < i64Half)) && sumsInRange (a + d) t

lemma foldl_wrapI64_eq_sum :
    ∀ (ds : List Int) (a : Int), -i64Half ≤ a → a < i64Half → sumsInRange a ds = true →
      ds.foldl (fun x d => wrapI64 (x + d)) a = a + ds.sum
  | [], a, _, _, _ => by simp
  | d :: t, a, _, _, hr => by
    simp only [sumsInRange, Bool.and_eq_true, decide_eq_true_eq] at hr
    obtain ⟨⟨h₁, h₂⟩, h₃⟩ := hr
    simp only [List.foldl_cons, List.sum_cons]
    rw [wrapI64_eq_self h₁ h₂, foldl_wrapI64_eq_sum t (a + d) h₁ h₂ h₃]
    ring

/-! Helper lemmas about the counter store. -/

lemma Counter.update_on_empty {K : Type} [DecidableEq K] (s : Sample K) :
    Counter.update (⟨[]⟩ : Counter K) s = ⟨[]⟩ := by
  cases s <;> rfl

lemma Counter.foldl_update_on_empty {K : Type} [DecidableEq K] (samples : List (Sample K)) :
    samples.foldl Counter.update (⟨[]⟩ : Counter K) = ⟨[]⟩ := by
  induction samples with
  | nil => rfl
  | cons s t ih => simp [List.foldl_cons, Counter.update_on_empty, ih]

lemma Counter.foldl_count_wrap {K : Type} [DecidableEq K] (k : K) :
    ∀ (ds : List Int) (c : Counter K) (v : Int), alookup c.data k = some v →
      ((ds.foldl (fun c d => Counter.update c (Sample.Count k d)) c).value k)
        = ds.foldl (fun x d => wrapI64 (x + d)) v
  | [], c, v, h => by simp [Counter.value, h]
  | d :: t, c, v, h => by
    simp only [List.foldl_cons]
    have h2 : alookup (Counter.update c (Sample.Count k d)).data k = some (wrapI64 (v + d)) := by
      simp [Counter.update, alookup_aadjust_self, h]
    exact Counter.foldl_count_wrap k t _ _ h2

/-! Helper lemmas about the gauge store. -/

lemma Gauge.foldl_value_getLastD {K : Type} [DecidableEq K] (k : K) :
    ∀ (vs : List Nat) (g : Gauge K) (w : Nat), alookup g.data k = some w →
      ((vs.foldl (fun g v => Gauge.update g (Sample.Value k v)) g).value k) = vs.getLastD w
  | [], g, w, h => by simp [Gauge.value, h]
  | v :: t, g, w, h => by
    simp only [List.foldl_cons, List.getLastD_cons]
    have h2 : alookup (Gauge.update g (Sample.Value k v)).data k = some v := by
      simp [Gauge.update, alookup_aadjust_self, h]
    exact Gauge.foldl_value_getLastD k t _ _ h2

lemma Gauge.update_on_empty_gauge {K : Type} [DecidableEq K] (s : Sample K) :
    Gauge.update (⟨[]⟩ : Gauge K) s = ⟨[]⟩ := by
  cases s <;> rfl

lemma Gauge.foldl_update_on_empty_gauge {K : Type} [DecidableEq K] (samples : List (Sample K)) :
    samples.foldl Gauge.update (⟨[]⟩ : Gauge K) = ⟨[]⟩ := by
  induction samples with
  | nil => rfl
  | cons s t ih => simp [List.foldl_cons, Gauge.update_on_empty_gauge, ih]

/-- C2, counterexample: with no registration performed beforehand, a single
`Count(k, 42)` sample leaves the counter store value for `k` at `0`, not at
the claimed sum `42`. -/
theorem counter_unregistered_count_dropped :
    ((Counter.new (K := Nat)).update (Sample.Count 0 42)).value 0 ≠ ([42] : List Int).sum := by
  decide

/-- C2 (amended): the counter store accumulates `Count(k, dᵢ)` samples into
the sum of the deltas only for a key registered beforehand (shown here with
running sums inside the `i64` range); with no registration performed, every
update is dropped and the value for `k` stays `0`. -/
theorem counter_registered_count_sums {K : Type} [DecidableEq K] (k : K) (ds : List Int)
    (h : sumsInRange 0 ds = true) :
    ((ds.foldl (fun c d => Counter.update c (Sample.Count k d))
        ((Counter.new (K := K)).register k)).value k = ds.sum)
    ∧ ∀ (samples : List (Sample K)),
        (samples.foldl Counter.update (Counter.new (K := K))).value k = 0 := by
  constructor
  · have hreg : alookup ((Counter.new (K := K)).register k).data k = some 0 := by
      simp [Counter.new, Counter.register, aorInsert, alookup]
    rw [Counter.foldl_count_wrap k ds _ 0 hreg]
    rw [foldl_wrapI64_eq_sum ds 0 (by simp [i64Half]) (by simp [i64Half]) h]
    simp
  · intro samples
    have : (samples.foldl Counter.update (Counter.new (K := K))) = ⟨[]⟩ :=
      Counter.foldl_update_on_empty samples
    rw [this]
    rfl

/-- C2, witness: the registered-key part at `k = 0`, deltas `[5, -2, 1]`. -/
theorem counter_registered_count_sums_witness :
    sumsInRange 0 [5, -2, 1] = true ∧
    (([5, -2, 1] : List Int).foldl (fun c d => Counter.update c (Sample.Count (0 : Nat) d))
        ((Counter.new (K := Nat)).register 0)).value 0 = ([5, -2, 1] : List Int).sum :=
  ⟨by decide, (counter_registered_count_sums (0 : Nat) [5, -2, 1] (by decide)).1⟩

/-- C3, counterexample: with no registration performed beforehand, a gauge
sample `Value(k, 42)` leaves the gauge store value for `k` at `0`, not at
the claimed last sample value `42`. -/
theorem gauge_unregistered_value_dropped :
    ((Gauge.new (K := Nat)).update (Sample.Value 0 42)).value 0 ≠ 42 := by
  decide

/-- C3 (amended): for a key registered beforehand, after a non-empty
sequence of gauge samples (`Value` samples, the gauge-writing sample kind)
the gauge store value for `k` equals the value of the last sample in
channel order; with no registration performed, every update is dropped and
the value for `k` stays `0`. -/
theorem gauge_registered_last_write_wins {K : Type} [DecidableEq K] (k : K) (vs : List Nat)
    (h : vs ≠ []) :
    ((vs.foldl (fun g v => Gauge.update g (Sample.Value k v))
        ((Gauge.new (K := K)).register k)).value k = vs.getLast h)
    ∧ ∀ (samples : List (Sample K)),
        (samples.foldl Gauge.update (Gauge.new (K := K))).value k = 0 := by
  constructor
  · have hreg : alookup ((Gauge.new (K := K)).register k).data k = some 0 := by
      simp [Gauge.new, Gauge.register, aorInsert, alookup]
    rw [Gauge.foldl_value_getLastD k vs _ 0 hreg]
    cases vs with
    | nil => exact absurd rfl h
    | cons a t => simp [List.getLastD_eq_getLast?, List.getLast?_eq_getLast]
  · intro samples
    have : (samples.foldl Gauge.update (Gauge.new (K := K))) = ⟨[]⟩ :=
      Gauge.foldl_update_on_empty_gauge samples
    rw [this]
    rfl

/-- C3, witness: the registered-key part at `k = 0`, values `[100, 7]`. -/
theorem gauge_registered_last_write_wins_witness :
    (([100, 7] : List Nat).foldl (fun g v => Gauge.update g (Sample.Value (0 : Nat) v))
        ((Gauge.new (K := Nat)).register 0)).value 0
      = ([100, 7] : List Nat).getLast (by decide) :=
  (gauge_registered_last_write_wins (0 : Nat) [100, 7] (by decide)).1

/-- C10: a lookup of an absent key never fails — for any counter or gauge
store, a key without an entry reads as `0`, and in particular any key reads
as `0` on a fresh store. -/
theorem absent_key_reads_zero {K : Type} [DecidableEq K] (c : Counter K) (g : Gauge K)
    (k : K) :
    (alookup c.data k = none → c.value k = 0)
    ∧ (alookup g.data k = none → g.value k = 0)
    ∧ (Counter.new (K := K)).value k = 0
    ∧ (Gauge.new (K := K)).value k = 0 := by
  refine ⟨fun h => ?_, fun h => ?_, rfl, rfl⟩
  · simp [Counter.value, h]
  · simp [Gauge.value, h]

/-- C10, witness: stores holding other keys, queried at the absent key `7`. -/
theorem absent_key_reads_zero_witness :
    (⟨[(1, 5)]⟩ : Counter Nat).value 7 = 0 ∧ (⟨[(2, 9)]⟩ : Gauge Nat).value 7 = 0 :=
  ⟨(absent_key_reads_zero ⟨[(1, 5)]⟩ (⟨[(2, 9)]⟩ : Gauge Nat) 7).1 (by decide),
   (absent_key_reads_zero (⟨[(1, 5)]⟩ : Counter Nat) ⟨[(2, 9)]⟩ 7).2.1 (by decide)⟩

/-! Helper lemmas about list buckets. -/

lemma getD_set_self {α : Type} (l : List α) (i : Nat) (x d : α) (h : i < l.length) :
    (l.set i x).getD i d = x := by
  simp [List.getD_eq_getElem?_getD, List.getElem?_set_self, h]

lemma getD_set_ne {α : Type} (l : List α) (i j : Nat) (x d : α) (h : i ≠ j) :
    (l.set i x).getD j d = l.getD j d := by
  simp [List.getD_eq_getElem?_getD, List.getElem?_set_ne h]

lemma mem_set_of_lt {α : Type} (l : List α) (i : Nat) (b : α) (h : i < l.length) :
    b ∈ l.set i b := by
  have h2 : i < (l.set i b).length := by simpa using h
  have h3 : (l.set i b)[i] = b := List.getElem_set_self h2
  have h4 := List.getElem_mem h2
  rwa [h3] at h4

/-! Helper lemmas about the histogram store. -/

lemma WindowedHistogram.mem_merged_update (wh : WindowedHistogram) (v : Nat)
    (h : wh.bucket_index < wh.buckets.length) : v ∈ (wh.update v).merged := by
  unfold WindowedHistogram.update WindowedHistogram.merged
  simp only [List.mem_flatten]
  exact ⟨(wh.buckets.getD wh.bucket_index []) ++ [v],
    mem_set_of_lt _ _ _ h, by simp⟩

lemma Histogram.snapshot_update_of_some {K : Type} [DecidableEq K] (h : Histogram K)
    (k : K) (v : Nat) (wh : WindowedHistogram) (hl : alookup h.data k = some wh) :
    (h.update (Sample.Value k v)).snapshot k = some ((wh.update v).merged) := by
  simp [Histogram.update, Histogram.snapshot, alookup_aadjust_self, hl]

/-- C4, counterexample: updating the histogram store with a value when the
key has no entry does not create an entry — the store is unchanged and the
per-key snapshot is `None`, so it does not contain the recorded value. -/
theorem histogram_unregistered_update_dropped :
    ((Histogram.new (K := Nat) 10000000000 1000000000).update (Sample.Value 0 7)).snapshot 0
        = none
    ∧ ((Histogram.new (K := Nat) 10000000000 1000000000).update (Sample.Value 0 7))
        = Histogram.new 10000000000 1000000000 := by
  constructor
  · rfl
  · rfl

/-- C4 (amended): when `k` already has an entry (entries are created by
registration with the configured window and granularity, not lazily on
first write), updating with `v` records `v` into the entry's current writer
bucket and a subsequent per-key snapshot contains `v`; when `k` has no
entry the update is dropped and the snapshot is `None`. -/
theorem histogram_update_registered_records {K : Type} [DecidableEq K] (h : Histogram K)
    (k : K) (v now : Nat) :
    (alookup h.data k = none →
       h.update (Sample.Value k v) = h
       ∧ h.snapshot k = none
       ∧ alookup ((h.register k now)).data k
           = some (WindowedHistogram.new h.window h.granularity now)
       ∧ ∃ m, ((h.register k now).update (Sample.Value k v)).snapshot k = some m ∧ v ∈ m)
    ∧ (∀ wh, alookup h.data k = some wh → wh.bucket_index < wh.buckets.length →
       (h.update (Sample.Value k v)).snapshot k = some ((wh.update v).merged)
       ∧ v ∈ (wh.update v).merged) := by
  constructor
  · intro hnone
    refine ⟨?_, ?_, ?_, ?_⟩
    · show ({ h with data := aadjust _ h.data k } : Histogram K) = h
      rw [aadjust_of_alookup_none _ _ _ hnone]
    · simp [Histogram.snapshot, hnone]
    · rw [show (h.register k now).data = aorInsert h.data k
            (WindowedHistogram.new h.window h.granularity now) from rfl]
      rw [alookup_aorInsert_self, hnone]
      rfl
    · have hreg : alookup (h.register k now).data k
          = some (WindowedHistogram.new h.window h.granularity now) := by
        rw [show (h.register k now).data = aorInsert h.data k
              (WindowedHistogram.new h.window h.granularity now) from rfl]
        rw [alookup_aorInsert_self, hnone]
        rfl
      refine ⟨((WindowedHistogram.new h.window h.granularity now).update v).merged,
        Histogram.snapshot_update_of_some _ _ _ _ hreg, ?_⟩
      apply WindowedHistogram.mem_merged_update
      show 0 < (List.replicate (h.window / h.granularity + 1) ([] : List Nat)).length
      simp
  · intro wh hl hidx
    exact ⟨Histogram.snapshot_update_of_some _ _ _ _ hl,
      WindowedHistogram.mem_merged_update wh v hidx⟩

/-- C4, witness: a fresh store over `Nat` keys, key `3`, value `7`,
registration at time `0`. -/
theorem histogram_update_registered_records_witness :
    ∃ m, (((Histogram.new (K := Nat) 10000000000 1000000000).register 3 0).update
        (Sample.Value 3 7)).snapshot 3 = some m ∧ 7 ∈ m :=
  ((histogram_update_registered_records
      (Histogram.new (K := Nat) 10000000000 1000000000) 3 7 0).1 (by decide)).2.2.2

/-- C6: for a windowed histogram whose bucket vector has `num_buckets`
entries (as construction guarantees): when `now ≥ last_upkeep + granularity`,
upkeep advances the writer index modulo the bucket count, clears exactly
the new current bucket (every other bucket is unchanged) and sets
`last_upkeep = now`; otherwise upkeep changes nothing, so a repeated call
within one granularity interval of the last advance is a no-op.  The final
conjunct records the `N + 1` bucket count of construction. -/
theorem windowed_histogram_upkeep_spec (wh : WindowedHistogram) (now : Nat)
    (hlen : wh.buckets.length = wh.num_buckets) (hn : 0 < wh.num_buckets) :
    (wh.last_upkeep + wh.granularity ≤ now →
       (wh.upkeep now).bucket_index = (wh.bucket_index + 1) % wh.num_buckets
       ∧ (wh.upkeep now).last_upkeep = now
       ∧ (wh.upkeep now).num_buckets = wh.num_buckets
       ∧ (wh.upkeep now).granularity = wh.granularity
       ∧ (wh.upkeep now).buckets.length = wh.num_buckets
       ∧ (wh.upkeep now).buckets.getD ((wh.bucket_index + 1) % wh.num_buckets) [] = []
       ∧ ∀ j, j ≠ (wh.bucket_index + 1) % wh.num_buckets →
           (wh.upkeep now).buckets.getD j [] = wh.buckets.getD j [])
    ∧ (now < wh.last_upkeep + wh.granularity → wh.upkeep now = wh)
    ∧ (∀ t₂, t₂ < (wh.upkeep now).last_upkeep + wh.granularity →
         (wh.upkeep now).upkeep t₂ = wh.upkeep now)
    ∧ (∀ window granularity t₀,
         (WindowedHistogram.new window granularity t₀).num_buckets
             = window / granularity + 1
         ∧ (WindowedHistogram.new window granularity t₀).buckets
             = List.replicate (window / granularity + 1) []
         ∧ (WindowedHistogram.new window granularity t₀).bucket_index = 0
         ∧ (WindowedHistogram.new window granularity t₀).last_upkeep = t₀
         ∧ (WindowedHistogram.new window granularity t₀).granularity = granularity) := by
  have hmod : (wh.bucket_index + 1) % wh.num_buckets < wh.buckets.length := by
    rw [hlen]
    exact Nat.mod_lt _ hn
  refine ⟨fun hadv => ?_, fun hno => ?_, fun t₂ ht₂ => ?_, fun w g t₀ => ⟨rfl, rfl, rfl, rfl, rfl⟩⟩
  · rw [show wh.upkeep now = { wh with
        bucket_index := (wh.bucket_index + 1) % wh.num_buckets,
        buckets := wh.buckets.set ((wh.bucket_index + 1) % wh.num_buckets) [],
        last_upkeep := now } from by unfold WindowedHistogram.upkeep; rw [if_pos hadv]]
    refine ⟨rfl, rfl, rfl, rfl, by simpa using hlen, getD_set_self _ _ _ _ hmod,
      fun j hj => getD_set_ne _ _ _ _ _ (fun he => hj he.symm)⟩
  · unfold WindowedHistogram.upkeep
    rw [if_neg (by omega)]
  · have hgran : (wh.upkeep now).granularity = wh.granularity := by
      unfold WindowedHistogram.upkeep
      split <;> rfl
    have ht : t₂ < (wh.upkeep now).last_upkeep + (wh.upkeep now).granularity := by
      rw [hgran]
      exact ht₂
    clear ht₂ hgran hmod hlen hn
    generalize wh.upkeep now = s at ht ⊢
    unfold WindowedHistogram.upkeep
    rw [if_neg (by omega)]

/-- C6, witness: a three-bucket windowed histogram with granularity 10 last
kept up at 100; upkeep at 110 advances to bucket 1 and clears it, leaves
buckets 0 and 2 alone, and a repeated call at 115 changes nothing. -/
theorem windowed_histogram_upkeep_spec_witness :
    ((⟨[[1], [2], [3]], 3, 0, 100, 10⟩ : WindowedHistogram).upkeep 110).bucket_index = (0 + 1) % 3
    ∧ ((⟨[[1], [2], [3]], 3, 0, 100, 10⟩ : WindowedHistogram).upkeep 110).buckets.getD ((0 + 1) % 3) [] = []
    ∧ ((⟨[[1], [2], [3]], 3, 0, 100, 10⟩ : WindowedHistogram).upkeep 110).buckets.getD 2 [] = (⟨[[1], [2], [3]], 3, 0, 100, 10⟩ : WindowedHistogram).buckets.getD 2 []
    ∧ (((⟨[[1], [2], [3]], 3, 0, 100, 10⟩ : WindowedHistogram).upkeep 110).upkeep 115
        = (⟨[[1], [2], [3]], 3, 0, 100, 10⟩ : WindowedHistogram).upkeep 110) := by
  have h := windowed_histogram_upkeep_spec ⟨[[1], [2], [3]], 3, 0, 100, 10⟩ 110 (by decide)
    (by decide)
  obtain ⟨hadv, _, hidem, _⟩ := h
  have ha := hadv (by decide)
  exact ⟨ha.1, ha.2.2.2.2.2.1, ha.2.2.2.2.2.2 2 (by decide), hidem 115 (by rw [ha.2.1]; decide)⟩

/-- C7, counterexample: a send on a full bounded channel returns
`SendError::Full` to the caller instead of blocking. -/
theorem channel_send_full_returns_error :
    Chan.send (⟨1, [0]⟩ : Chan Nat) 1 = Except.error (SendError.Full 1) := by
  rfl

/-- C7 (amended): `Sender::send` on the bounded sample channel never
blocks: when the channel has no free slot it returns `SendError::Full`
carrying the sample back to the caller (the sample is not silently
dropped), and otherwise it enqueues the sample. -/
theorem channel_send_full_or_enqueue {α : Type} (c : Chan α) (t : α) :
    (c.isFull = true → c.send t = Except.error (SendError.Full t))
    ∧ (c.isFull = false → c.send t = Except.ok ⟨c.bound, c.queue ++ [t]⟩) := by
  constructor
  · intro h
    simp [Chan.send, h]
  · intro h
    simp [Chan.send, h]

/-- C7, witness: a full one-slot channel rejects with `Full`, a two-slot
channel with one element enqueues. -/
theorem channel_send_full_or_enqueue_witness :
    Chan.send (⟨1, [5]⟩ : Chan Nat) 9 = Except.error (SendError.Full 9)
    ∧ Chan.send (⟨2, [5]⟩ : Chan Nat) 9 = Except.ok ⟨2, [5, 9]⟩ :=
  ⟨(channel_send_full_or_enqueue (⟨1, [5]⟩ : Chan Nat) 9).1 (by decide),
   (channel_send_full_or_enqueue (⟨2, [5]⟩ : Chan Nat) 9).2 (by decide)⟩

/-- C8: `Controller::get_snapshot` returns `ReceiverShutdown` exactly when
the control-channel send fails, `InternalError` exactly when the send
succeeds but the response channel yields nothing, and otherwise the
snapshot the receiver delivered. -/
theorem controller_get_snapshot_spec {α : Type} (sendOk : Bool) (response : Option α) :
    (Controller.getSnapshot sendOk response = Except.error SnapshotError.ReceiverShutdown
       ↔ sendOk = false)
    ∧ (Controller.getSnapshot sendOk response = Except.error SnapshotError.InternalError
       ↔ sendOk = true ∧ response = none)
    ∧ (∀ s, Controller.getSnapshot sendOk response = Except.ok s
       ↔ sendOk = true ∧ response = some s) := by
  refine ⟨?_, ?_, fun s => ?_⟩ <;> cases sendOk <;> cases response <;>
    simp [Controller.getSnapshot]

/-- Helper: with a frequency ratio of 1, `Clock::delta` is exactly the
wrapping difference of the two raw readings. -/
lemma Clock.deltaOf_ratio_one (cal : Calibration) (h1 : cal.hz_ratio = 1) (s e : Nat) :
    Clock.deltaOf cal s e = (e + 2 ^ 64 - s) % 2 ^ 64 := by
  unfold Clock.deltaOf ratAsU64
  rw [h1, mul_one]
  have hw : u64WrapSub e s < 2 ^ 64 := Nat.mod_lt _ (by norm_num)
  rw [Int.floor_natCast, Int.toNat_natCast, min_eq_left (by omega : u64WrapSub e s ≤ 2 ^ 64 - 1)]
  rfl

/-- C9: clock construction is total; when reference and source share a
clock type (the fast source is unavailable) calibration leaves
`hz_ratio = 1`; and `delta` is the wrapping difference of the raw readings
scaled by `hz_ratio`, so wraparound (`e < s`) yields the small interval
`e + (2^64 - s)` rather than a huge one. -/
theorem clock_delta_wraps (r0 s0 s1 : ℚ) (cal : Calibration) (s e : Nat)
    (h1 : cal.hz_ratio = 1) (hs : s < 2 ^ 64) (he : e < 2 ^ 64) :
    ((Clock.new false r0 s0 s1).cal.hz_ratio = 1
     ∧ (Clock.new false r0 s0 s1).cal.calibrated = true)
    ∧ Clock.deltaOf cal s e = (e + 2 ^ 64 - s) % 2 ^ 64
    ∧ (e < s → Clock.deltaOf cal s e = e + (2 ^ 64 - s)) := by
  refine ⟨⟨rfl, rfl⟩, Clock.deltaOf_ratio_one cal h1 s e, fun hlt => ?_⟩
  rw [Clock.deltaOf_ratio_one cal h1 s e]
  have : e + 2 ^ 64 - s = e + (2 ^ 64 - s) := by omega
  rw [this, Nat.mod_eq_of_lt (by omega)]

/-- C9, witness: an uncalibrated-ratio-1 calibration, a reading pair that
wrapped around the counter (`s = 2^64 - 5`, `e = 10`) measures 15 ticks. -/
theorem clock_delta_wraps_witness :
    Calibration.new.hz_ratio = 1
    ∧ Clock.deltaOf Calibration.new (2 ^ 64 - 5) 10 = 10 + (2 ^ 64 - (2 ^ 64 - 5)) :=
  ⟨rfl,
   (clock_delta_wraps 0 0 0 Calibration.new (2 ^ 64 - 5) 10 rfl (by decide) (by decide)).2.2
     (by decide)⟩

/-- C5, counterexample: the default capacity is 512 rather than 1024, and
`Receiver::from_config` ignores the configured histogram window,
granularity and percentile set. -/
theorem configuration_defaults_counterexample :
    Configuration.new.capacity ≠ 1024
    ∧ (ReceiverState.fromConfig (K := Nat)
        (Configuration.new.setHistogram 20000000000 5000000000)
        Calibration.new).histogram.window ≠ 20000000000
    ∧ (ReceiverState.fromConfig (K := Nat)
        (Configuration.new.setHistogram 20000000000 5000000000)
        Calibration.new).histogram.granularity ≠ 5000000000
    ∧ (ReceiverState.fromConfig (K := Nat)
        (Configuration.new.setPercentiles [10])
        Calibration.new).percentiles.map Percentile.value ≠ [10] := by
  refine ⟨by decide, by decide, by decide, ?_⟩
  show dataDefaultPercentiles.map Percentile.value ≠ [10]
  simp [dataDefaultPercentiles]

/-- C5 (amended): `Configuration::new()` yields capacity 512, batch size
64, a 10 s histogram window with 1 s granularity and the percentile values
{0, 50, 95, 99, 99.9, 100}; the Receiver built from a configuration `c`
uses `c.capacity` for the sample channel (and 16 for the control channel)
but hard-codes the 10 s / 1 s histogram store and the data module default
percentile set {0, 50, 90, 99, 99.9, 100} regardless of `c`. -/
theorem configuration_defaults_spec {K : Type} [DecidableEq K] :
    Configuration.new.capacity = 512
    ∧ Configuration.new.batch_size = 64
    ∧ Configuration.new.histogram_window = 10000000000
    ∧ Configuration.new.histogram_granularity = 1000000000
    ∧ Configuration.new.percentiles.map Percentile.value = [0, 50, 95, 99, 99.9, 100]
    ∧ dataDefaultPercentiles.map Percentile.value = [0, 50, 90, 99, 99.9, 100]
    ∧ ∀ (conf : Configuration) (cal : Calibration),
        (ReceiverState.fromConfig (K := K) conf cal).msgCapacity = conf.capacity
        ∧ (ReceiverState.fromConfig (K := K) conf cal).controlCapacity = 16
        ∧ (ReceiverState.fromConfig (K := K) conf cal).histogram
            = Histogram.new 10000000000 1000000000
        ∧ (ReceiverState.fromConfig (K := K) conf cal).percentiles = dataDefaultPercentiles
        ∧ (ReceiverState.fromConfig (K := K) conf cal).counter = Counter.new
        ∧ (ReceiverState.fromConfig (K := K) conf cal).gauge = Gauge.new
        ∧ (ReceiverState.fromConfig (K := K) conf cal).facets = []
        ∧ (ReceiverState.fromConfig (K := K) conf cal).scopes = [] := by
  refine ⟨rfl, rfl, rfl, rfl, ?_, ?_, fun conf cal => ⟨rfl, rfl, rfl, rfl, rfl, rfl, rfl, rfl⟩⟩
  · show configDefaultPercentiles.map Percentile.value = [0, 50, 95, 99, 99.9, 100]
    simp [configDefaultPercentiles, Percentile.from]
    norm_num
  · simp [dataDefaultPercentiles]

/-- A concrete receiver state for exercising the timing path: the scoped
key `(0, 0)` is registered with the counter (value 0), the gauge (value 0)
and the histogram store, the clock calibration has `hz_ratio = 1`, and the
remaining fields are as `from_config` builds them. -/
def timingProbeState : ReceiverState Nat :=
  { msgCapacity := 512
    controlCapacity := 16
    facets := [Facet.Count (0, 0), Facet.Gauge (0, 0), Facet.TimingPercentile (0, 0)]
    counter := ⟨[((0, 0), 0)]⟩
    gauge := ⟨[((0, 0), 0)]⟩
    histogram := ⟨10000000000, 1000000000,
      [((0, 0), WindowedHistogram.new 10000000000 1000000000 0)]⟩
    percentiles := dataDefaultPercentiles
    cal := Calibration.new
    scopes := [] }

/-- C1: evaluation of the code at the failing input.  Processing
`Timing((0,0), 0, 100, 42)` — with `clock.delta(0, 100) = 100` — leaves the
counter entry at `1` (the receiver first rewrites the sample to
`Value(key, delta)`, whose counter arm adds 1, so the count 42 is lost),
overwrites the gauge entry with the delta `100`, and records `100` into the
histogram entry.  The claim instead requires the counter to gain 42 and the
gauge to be unchanged at 0. -/
theorem receiver_timing_drops_count_and_sets_gauge :
    (timingProbeState.processMsgFrame
        (MessageFrame.Data (Sample.Timing (0, 0) 0 100 42)) 0).counter.value (0, 0) = 1
    ∧ (timingProbeState.processMsgFrame
        (MessageFrame.Data (Sample.Timing (0, 0) 0 100 42)) 0).gauge.value (0, 0) = 100
    ∧ (timingProbeState.processMsgFrame
        (MessageFrame.Data (Sample.Timing (0, 0) 0 100 42)) 0).histogram.snapshot (0, 0)
        = some [100]
    ∧ (1 : Int) ≠ 42 := by
  have hδ : Clock.deltaOf timingProbeState.cal 0 100 = 100 := by
    rw [Clock.deltaOf_ratio_one _ rfl]
    decide
  have key : timingProbeState.processMsgFrame
      (MessageFrame.Data (Sample.Timing (0, 0) 0 100 42)) 0
      = { timingProbeState with
          counter := timingProbeState.counter.update (Sample.Value (0, 0) 100)
          gauge := timingProbeState.gauge.update (Sample.Value (0, 0) 100)
          histogram := timingProbeState.histogram.update (Sample.Value (0, 0) 100) } := by
    show ({ timingProbeState with
        counter := timingProbeState.counter.update
          (Sample.Value (0, 0) (Clock.deltaOf timingProbeState.cal 0 100))
        gauge := timingProbeState.gauge.update
          (Sample.Value (0, 0) (Clock.deltaOf timingProbeState.cal 0 100))
        histogram := timingProbeState.histogram.update
          (Sample.Value (0, 0) (Clock.deltaOf timingProbeState.cal 0 100)) }
      : ReceiverState Nat) = _
    rw [hδ]
  rw [key]
  refine ⟨by decide, by decide, by decide, by decide⟩
